import Mathlib

/-!
Shallow embedding of `src/ParticleManager.cpp` (a CPU-side manager for a
GPU-resident 2D particle demo).  Float arithmetic is modelled over the real
numbers; the OpenGL API is modelled as a trace of commands emitted by each
method.  Random number generation (`RandomToast.h`, not part of the sources)
is modelled by passing the random draws as explicit parameters.
-/

namespace ParticleSim

/-- A 2-component vector (`glm::vec2`), components modelled as reals. -/
structure Vec2 where
  x : ℝ
  y : ℝ

/-- A 4-component vector (`glm::vec4`), components modelled as reals. -/
structure Vec4 where
  x : ℝ
  y : ℝ
  z : ℝ
  w : ℝ

/-- `glm::dot` on `vec4`: sum of componentwise products. -/
def dot4 (a b : Vec4) : ℝ :=
  a.x * b.x + a.y * b.y + a.z * b.z + a.w * b.w

/-- Componentwise subtraction of `vec4`s (`operator-` in glm). -/
def sub4 (a b : Vec4) : Vec4 :=
  ⟨a.x - b.x, a.y - b.y, a.z - b.z, a.w - b.w⟩

/-- `glm::vec4(v, z, w)`: promote a `vec2` to a `vec4`. -/
def toVec4 (v : Vec2) (z w : ℝ) : Vec4 :=
  ⟨v.x, v.y, z, w⟩

/-- `glm::normalize` on `vec2`: divide by the Euclidean length.  (For the
zero vector the C++ code divides by zero; over ℝ Lean's division by zero
yields zero components.) -/
noncomputable def normalize (v : Vec2) : Vec2 :=
  let len := Real.sqrt (v.x * v.x + v.y * v.y)
  ⟨v.x / len, v.y / len⟩

/-- Euclidean magnitude of a `vec2`; the measurement the spec's
"velocity magnitude" and "distance" talk about. -/
noncomputable def mag (v : Vec2) : ℝ :=
  Real.sqrt (v.x * v.x + v.y * v.y)

/-- One particle record.  `ParticleManager.h` is not among the sources; the
fields are those referenced by `ParticleManager.cpp` (attribute setup and
`ResetParticle`): `_position : glm::vec4`, `_velocity : glm::vec4`,
`_isActive : int`. -/
structure Particle where
  position : Vec4
  velocity : Vec4
  isActive : ℤ

/-- Modelled from the spec: the record a `std::vector<Particle>::resize`
creates before `Init` seeds it (`ParticleManager.h` with the definition of
`Particle` is not among the sources); all components zero. -/
def initialParticle : Particle :=
  ⟨⟨0, 0, 0, 0⟩, ⟨0, 0, 0, 0⟩, 0⟩

/-- The random draws consumed by one `ResetParticle` call:
two `RandomPosAndNeg()` results and one `RandomOnRange0to1()` result for the
position, and the same trio for the velocity
(`GetNewVelocityVector`).  `RandomToast.h` is not among the sources, so the
draws are inputs of the model; by their names, `posAndNegX/Y` range over ℤ
and `range0to1*` over `[0,1]` (the latter is assumed where needed). -/
structure ResetRandom where
  posAndNegX : ℤ
  posAndNegY : ℤ
  range0to1Pos : ℝ
  velPosAndNegX : ℤ
  velPosAndNegY : ℤ
  range0to1Vel : ℝ

/-- CPU-side state of a `ParticleManager`.  GL object handles created during
`Init` (`_shaderBufferId`, `_vaoId`) are modelled as values handed in by the
environment; `_sizeBytes` (a `sizeof`-derived byte count) is a memory-layout
detail and is omitted. -/
structure ParticleManager where
  programId : ℕ
  computeProgramId : ℕ
  allParticles : List Particle
  drawStyle : ℕ
  maxParticlesEmittedPerFrame : ℕ
  center : Vec2
  radiusSqr : ℝ
  velocityMin : ℝ
  velocityDelta : ℝ
  unifLocDeltaTimeSec : ℤ
  unifLocRadiusSqr : ℤ
  unifLocEmitterCenter : ℤ
  unifLocMaxParticlesEmittedPerFrame : ℤ
  unifLocMaxParticleCount : ℤ
  shaderBufferId : ℕ
  vaoId : ℕ

/-- The OpenGL calls the modelled methods emit, as trace events. -/
inductive GLCmd where
  | useProgram (id : ℕ)
  | uniform1f (loc : ℤ) (value : ℝ)
  | dispatchCompute (numX numY numZ : ℕ)
  | memoryBarrier (bits : ℕ)
  | bindVertexArray (id : ℕ)
  | drawArrays (mode : ℕ) (firstVertex : ℕ) (vertexCount : ℕ)

/-- The GL enum `GL_POINTS` (value 0x0000). -/
def GL_POINTS : ℕ := 0

/-- The GL bitmask `GL_ALL_BARRIER_BITS` (value 0xFFFFFFFF). -/
def GL_ALL_BARRIER_BITS : ℕ := 4294967295

/-- `ParticleManager::GetNewVelocityVector`: normalize a random direction
whose components are `RandomPosAndNeg() % 100` (C truncated remainder,
`Int.tmod`), pick a magnitude `_velocityMin + RandomOnRange0to1() *
_velocityDelta`, and scale the direction by it. -/
noncomputable def GetNewVelocityVector (st : ParticleManager)
    (velPosAndNegX velPosAndNegY : ℤ) (range0to1Vel : ℝ) : Vec2 :=
  let newX : ℝ := (Int.tmod velPosAndNegX 100 : ℤ)
  let newY : ℝ := (Int.tmod velPosAndNegY 100 : ℤ)
  let randomVelocityVector := normalize ⟨newX, newY⟩
  let velocityVariation := range0to1Vel * st.velocityDelta
  let velocityMagnitude := st.velocityMin + velocityVariation
  ⟨randomVelocityVector.x * velocityMagnitude,
   randomVelocityVector.y * velocityMagnitude⟩

/-- `ParticleManager::ResetParticle`: set the particle's position to the
emitter center plus a random unit vector scaled by `RandomOnRange0to1() *
0.1`, and its velocity to `GetNewVelocityVector()`; both stored as `vec4`s
with zero `z`/`w`.  The `_isActive` flag is not written. -/
noncomputable def ResetParticle (st : ParticleManager) (r : ResetRandom)
    (resetThis : Particle) : Particle :=
  let newX : ℝ := (Int.tmod r.posAndNegX 100 : ℤ)
  let newY : ℝ := (Int.tmod r.posAndNegY 100 : ℤ)
  let randomVector := normalize ⟨newX, newY⟩
  let radiusVariation := r.range0to1Pos * 0.1
  let vel := GetNewVelocityVector st r.velPosAndNegX r.velPosAndNegY r.range0to1Vel
  { resetThis with
      position := ⟨st.center.x + randomVector.x * radiusVariation,
                   st.center.y + randomVector.y * radiusVariation, 0, 0⟩
      velocity := ⟨vel.x, vel.y, 0, 0⟩ }

/-- `ParticleManager::OutOfBounds`: true exactly when the squared length of
`p._position - vec4(_center, 0, 0)` (a 4-component dot product) is strictly
greater than `_radiusSqr`. -/
noncomputable def OutOfBounds (st : ParticleManager) (p : Particle) : Bool :=
  let centerToParticle := sub4 p.position (toVec4 st.center 0 0)
  let distSqr := dot4 centerToParticle centerToParticle
  if distSqr > st.radiusSqr then true else false

/-- `ParticleManager::Init`: record the program ids and emission parameters,
set `_drawStyle = GL_POINTS`, store `radius * radius` and
`maxVelocity - minVelocity`, resize the particle collection to
`numParticles` and seed every slot with `ResetParticle`.
`glGetUniformLocation` results and the buffer/VAO handles produced by
`glGenBuffers`/`glGenVertexArrays` are environment inputs; the GL setup
calls `Init` makes (uniform upload, buffer and attribute binding) have no
CPU-side effect beyond those handles and are not traced. -/
noncomputable def Init (programId computeProgramId : ℕ)
    (numParticles maxParticlesEmittedPerFrame : ℕ)
    (center : Vec2) (radius minVelocity maxVelocity : ℝ)
    (glGetUniformLocation : String → ℤ)
    (genBufferId genVaoId : ℕ)
    (rnd : ℕ → ResetRandom) : ParticleManager :=
  let st0 : ParticleManager :=
    { programId := programId
      computeProgramId := computeProgramId
      allParticles := []
      drawStyle := GL_POINTS
      maxParticlesEmittedPerFrame := maxParticlesEmittedPerFrame
      center := center
      radiusSqr := radius * radius
      velocityMin := minVelocity
      velocityDelta := maxVelocity - minVelocity
      unifLocDeltaTimeSec := glGetUniformLocation "uDeltaTimeSec"
      unifLocRadiusSqr := glGetUniformLocation "uRadiusSqr"
      unifLocEmitterCenter := glGetUniformLocation "uEmitterCenter"
      unifLocMaxParticlesEmittedPerFrame :=
        glGetUniformLocation "uMmaxParticlesEmittedPerFrame"
      unifLocMaxParticleCount := glGetUniformLocation "uMaxParticleCount"
      shaderBufferId := genBufferId
      vaoId := genVaoId }
  { st0 with
      allParticles :=
        (List.range numParticles).map fun i => ResetParticle st0 (rnd i) initialParticle }

/-- `ParticleManager::Update`: bind the compute program, upload the delta
time, dispatch `(_allParticles.size() / 256) + 1` work groups in X (1 in Y
and Z), issue one `glMemoryBarrier(GL_ALL_BARRIER_BITS)`, and unbind.  No
member field is written; the state is returned unchanged alongside the GL
trace. -/
noncomputable def Update (st : ParticleManager) (deltaTimeSec : ℝ) :
    ParticleManager × List GLCmd :=
  let numWorkGroupsX := st.allParticles.length / 256 + 1
  let numWorkGroupsY := 1
  let numWorkGroupsZ := 1
  (st,
   [GLCmd.useProgram st.computeProgramId,
    GLCmd.uniform1f st.unifLocDeltaTimeSec deltaTimeSec,
    GLCmd.dispatchCompute numWorkGroupsX numWorkGroupsY numWorkGroupsZ,
    GLCmd.memoryBarrier GL_ALL_BARRIER_BITS,
    GLCmd.useProgram 0])

/-- `ParticleManager::Render`: bind the draw program and VAO, issue one
`glDrawArrays(_drawStyle, 0, _allParticles.size())`, and unbind.  No member
field is written. -/
def Render (st : ParticleManager) : ParticleManager × List GLCmd :=
  (st,
   [GLCmd.useProgram st.programId,
    GLCmd.bindVertexArray st.vaoId,
    GLCmd.drawArrays st.drawStyle 0 st.allParticles.length,
    GLCmd.useProgram 0])

/-- Trace predicate: the command is a compute dispatch. -/
def isDispatch : GLCmd → Bool
  | GLCmd.dispatchCompute _ _ _ => true
  | _ => false

/-- Trace predicate: the command is a memory barrier. -/
def isBarrier : GLCmd → Bool
  | GLCmd.memoryBarrier _ => true
  | _ => false

/-- Trace predicate: the command is a draw call. -/
def isDraw : GLCmd → Bool
  | GLCmd.drawArrays _ _ _ => true
  | _ => false

/-- `mag` and `normalize` written out: `normalize` divides each component by
the Euclidean length, `mag` takes the square root of the sum of squared
components. -/
lemma mag_normalize_eq (d : Vec2) :
    mag (normalize d)
      = Real.sqrt
          (d.x / Real.sqrt (d.x * d.x + d.y * d.y)
              * (d.x / Real.sqrt (d.x * d.x + d.y * d.y))
            + d.y / Real.sqrt (d.x * d.x + d.y * d.y)
              * (d.y / Real.sqrt (d.x * d.x + d.y * d.y))) := rfl

/-- Normalizing a vector with a nonzero component yields a unit vector. -/
lemma mag_normalize_eq_one (d : Vec2) (h : d.x ≠ 0 ∨ d.y ≠ 0) :
    mag (normalize d) = 1 := by
  have hS : 0 < d.x * d.x + d.y * d.y := by
    rcases h with h | h
    · exact add_pos_of_pos_of_nonneg (mul_self_pos.mpr h) (mul_self_nonneg _)
    · exact add_pos_of_nonneg_of_pos (mul_self_nonneg _) (mul_self_pos.mpr h)
  have hLL : Real.sqrt (d.x * d.x + d.y * d.y) * Real.sqrt (d.x * d.x + d.y * d.y)
      = d.x * d.x + d.y * d.y := Real.mul_self_sqrt hS.le
  rw [mag_normalize_eq, div_mul_div_comm, div_mul_div_comm, div_add_div_same,
    hLL, div_self hS.ne']
  exact Real.sqrt_one

/-- Normalizing never yields a vector longer than 1 (the zero vector maps to
length 0 under the division-by-zero convention of the real model). -/
lemma mag_normalize_le_one (d : Vec2) : mag (normalize d) ≤ 1 := by
  rcases eq_or_ne d.x 0 with hx | hx
  · rcases eq_or_ne d.y 0 with hy | hy
    · rw [mag_normalize_eq, hx, hy]
      norm_num
    · exact le_of_eq (mag_normalize_eq_one d (Or.inr hy))
  · exact le_of_eq (mag_normalize_eq_one d (Or.inl hx))

/-- Scaling both components scales the magnitude by the absolute factor. -/
lemma mag_scale (a b m : ℝ) :
    mag ⟨a * m, b * m⟩ = mag ⟨a, b⟩ * |m| := by
  have h1 : a * m * (a * m) + b * m * (b * m)
      = (a * a + b * b) * (m * m) := by ring
  show Real.sqrt (a * m * (a * m) + b * m * (b * m)) = _
  rw [h1, Real.sqrt_mul (add_nonneg (mul_self_nonneg _) (mul_self_nonneg _)),
    Real.sqrt_mul_self_eq_abs]
  rfl

/-- C3: for every particle `p` and every manager initialized with center `c`
and radius `radius`, `OutOfBounds` returns `true` exactly when the squared
distance from `p`'s position to `c` (as the 4D point `(c.x, c.y, 0, 0)`,
matching the stored `vec4` positions) is strictly greater than
`radius * radius`. -/
theorem OutOfBounds_iff_outside_circle
    (programId computeProgramId numParticles maxEmit : ℕ)
    (c : Vec2) (radius minVelocity maxVelocity : ℝ)
    (gul : String → ℤ) (bufId vId : ℕ) (rnd : ℕ → ResetRandom)
    (p : Particle) :
    OutOfBounds (Init programId computeProgramId numParticles maxEmit c radius
      minVelocity maxVelocity gul bufId vId rnd) p = true ↔
    (p.position.x - c.x) ^ 2 + (p.position.y - c.y) ^ 2
      + p.position.z ^ 2 + p.position.w ^ 2 > radius * radius := by
  have key : (p.position.x - c.x) ^ 2 + (p.position.y - c.y) ^ 2
      + p.position.z ^ 2 + p.position.w ^ 2
      = (p.position.x - c.x) * (p.position.x - c.x)
        + (p.position.y - c.y) * (p.position.y - c.y)
        + (p.position.z - 0) * (p.position.z - 0)
        + (p.position.w - 0) * (p.position.w - 0) := by ring
  rw [key]
  simp only [OutOfBounds, dot4, sub4, toVec4, Init]
  split
  · next h => simpa using h
  · next h => simpa using h

/-- C8: `ResetParticle` writes only the position and velocity fields; the
`_isActive` flag of the particle is returned unchanged. -/
theorem ResetParticle_preserves_isActive (st : ParticleManager)
    (r : ResetRandom) (p : Particle) :
    (ResetParticle st r p).isActive = p.isActive := rfl

/-- C9: `Update` performs no CPU-side mutation: the manager state returned
alongside the emitted GL trace is exactly the input state, so the particle
array contents and every member field are unchanged. -/
theorem Update_preserves_state (st : ParticleManager) (deltaTimeSec : ℝ) :
    (Update st deltaTimeSec).1 = st := rfl

/-- C6: the particle array is fixed-size: `Init` sizes it to `numParticles`,
and neither `Update` nor `Render` changes its length. -/
theorem particle_array_fixed_size
    (programId computeProgramId numParticles maxEmit : ℕ)
    (c : Vec2) (radius minVelocity maxVelocity : ℝ)
    (gul : String → ℤ) (bufId vId : ℕ) (rnd : ℕ → ResetRandom)
    (st : ParticleManager) (deltaTimeSec : ℝ) :
    (Init programId computeProgramId numParticles maxEmit c radius
        minVelocity maxVelocity gul bufId vId rnd).allParticles.length
      = numParticles
    ∧ ((Update st deltaTimeSec).1).allParticles.length
      = st.allParticles.length
    ∧ ((Render st).1).allParticles.length = st.allParticles.length := by
  refine ⟨?_, rfl, rfl⟩
  simp [Init]

/-- C10: the compute dispatch issued by `Update` after `Init` with
`numParticles` particles uses exactly `numParticles / 256 + 1` work groups
in X and 1 in Y and Z, and with 256 invocations per group this covers every
particle: `(numParticles / 256 + 1) * 256 ≥ numParticles`. -/
theorem Update_dispatch_covers_all_particles
    (programId computeProgramId numParticles maxEmit : ℕ)
    (c : Vec2) (radius minVelocity maxVelocity : ℝ)
    (gul : String → ℤ) (bufId vId : ℕ) (rnd : ℕ → ResetRandom)
    (deltaTimeSec : ℝ) :
    ((Update (Init programId computeProgramId numParticles maxEmit c radius
        minVelocity maxVelocity gul bufId vId rnd) deltaTimeSec).2.filter
          isDispatch
      = [GLCmd.dispatchCompute (numParticles / 256 + 1) 1 1])
    ∧ (numParticles / 256 + 1) * 256 ≥ numParticles := by
  constructor
  · simp [Update, isDispatch, Init]
  · omega

/-- C4: after `Init` with `numParticles`, the internal particle collection
holds exactly `numParticles` records, and every one of them is the result of
seeding the freshly resized record with `ResetParticle` (random position
near the emitter center and random velocity). -/
theorem Init_seeds_all_particles
    (programId computeProgramId numParticles maxEmit : ℕ)
    (c : Vec2) (radius minVelocity maxVelocity : ℝ)
    (gul : String → ℤ) (bufId vId : ℕ) (rnd : ℕ → ResetRandom) :
    (Init programId computeProgramId numParticles maxEmit c radius
        minVelocity maxVelocity gul bufId vId rnd).allParticles.length
      = numParticles
    ∧ (Init programId computeProgramId numParticles maxEmit c radius
        minVelocity maxVelocity gul bufId vId rnd).allParticles
      = (List.range numParticles).map
          (fun i => ResetParticle
            (Init programId computeProgramId numParticles maxEmit c radius
              minVelocity maxVelocity gul bufId vId rnd)
            (rnd i) initialParticle) := by
  constructor
  · simp [Init]
  · rfl

/-- C5: `Render` on an initialized manager issues exactly one draw call, in
`GL_POINTS` mode, starting at vertex 0 and covering all `numParticles`
particles. -/
theorem Render_single_point_draw
    (programId computeProgramId numParticles maxEmit : ℕ)
    (c : Vec2) (radius minVelocity maxVelocity : ℝ)
    (gul : String → ℤ) (bufId vId : ℕ) (rnd : ℕ → ResetRandom) :
    (Render (Init programId computeProgramId numParticles maxEmit c radius
        minVelocity maxVelocity gul bufId vId rnd)).2.filter isDraw
      = [GLCmd.drawArrays GL_POINTS 0 numParticles] := by
  simp [Render, isDraw, Init]

/-- C7: every `Update` call emits exactly one compute dispatch and exactly
one memory barrier, the dispatch strictly before the barrier, and no other
synchronization; in a frame (`Update` trace followed by the `Render` trace)
the single draw comes strictly after the barrier. -/
theorem Update_one_dispatch_then_one_barrier
    (st : ParticleManager) (deltaTimeSec : ℝ) :
    ((Update st deltaTimeSec).2.countP isDispatch = 1)
    ∧ ((Update st deltaTimeSec).2.countP isBarrier = 1)
    ∧ ((Update st deltaTimeSec).2.findIdx isDispatch
        < (Update st deltaTimeSec).2.findIdx isBarrier)
    ∧ (((Update st deltaTimeSec).2 ++ (Render st).2).countP isDraw = 1)
    ∧ (((Update st deltaTimeSec).2 ++ (Render st).2).findIdx isBarrier
        < ((Update st deltaTimeSec).2 ++ (Render st).2).findIdx isDraw) := by
  refine ⟨?_, ?_, ?_, ?_, ?_⟩ <;>
    simp [Update, Render, isDispatch, isBarrier, isDraw,
      List.countP_cons, List.findIdx_cons]

/-- C1 (amended): if `Init` receives `0 ≤ minVelocity ≤ maxVelocity`, the
`RandomOnRange0to1` draw lies in `[0, 1]`, and the two random direction
components are not both zero after `% 100`, then every vector returned by
`GetNewVelocityVector` has magnitude between `minVelocity` and
`maxVelocity` inclusive. -/
theorem GetNewVelocityVector_magnitude_in_range
    (programId computeProgramId numParticles maxEmit : ℕ)
    (c : Vec2) (radius minVelocity maxVelocity : ℝ)
    (gul : String → ℤ) (bufId vId : ℕ) (rnd : ℕ → ResetRandom)
    (vx vy : ℤ) (r : ℝ)
    (hminmax : minVelocity ≤ maxVelocity) (hmin : 0 ≤ minVelocity)
    (hr0 : 0 ≤ r) (hr1 : r ≤ 1)
    (hdir : Int.tmod vx 100 ≠ 0 ∨ Int.tmod vy 100 ≠ 0) :
    minVelocity
      ≤ mag (GetNewVelocityVector (Init programId computeProgramId
          numParticles maxEmit c radius minVelocity maxVelocity gul bufId vId
          rnd) vx vy r)
    ∧ mag (GetNewVelocityVector (Init programId computeProgramId
          numParticles maxEmit c radius minVelocity maxVelocity gul bufId vId
          rnd) vx vy r) ≤ maxVelocity := by
  have hG : mag (GetNewVelocityVector (Init programId computeProgramId
          numParticles maxEmit c radius minVelocity maxVelocity gul bufId vId
          rnd) vx vy r)
      = mag ⟨(normalize ⟨((Int.tmod vx 100 : ℤ) : ℝ), ((Int.tmod vy 100 : ℤ) : ℝ)⟩).x
              * (minVelocity + r * (maxVelocity - minVelocity)),
             (normalize ⟨((Int.tmod vx 100 : ℤ) : ℝ), ((Int.tmod vy 100 : ℤ) : ℝ)⟩).y
              * (minVelocity + r * (maxVelocity - minVelocity))⟩ := rfl
  have hd : ((Int.tmod vx 100 : ℤ) : ℝ) ≠ 0 ∨ ((Int.tmod vy 100 : ℤ) : ℝ) ≠ 0 := by
    rcases hdir with h | h
    · exact Or.inl (Int.cast_ne_zero.mpr h)
    · exact Or.inr (Int.cast_ne_zero.mpr h)
  have hone : mag ⟨(normalize ⟨((Int.tmod vx 100 : ℤ) : ℝ), ((Int.tmod vy 100 : ℤ) : ℝ)⟩).x,
      (normalize ⟨((Int.tmod vx 100 : ℤ) : ℝ), ((Int.tmod vy 100 : ℤ) : ℝ)⟩).y⟩ = 1 :=
    mag_normalize_eq_one _ hd
  have hm : 0 ≤ minVelocity + r * (maxVelocity - minVelocity) := by nlinarith
  rw [hG, mag_scale, hone, one_mul, abs_of_nonneg hm]
  constructor <;> nlinarith

/-- C1 counterexample: `Init` with `minVelocity = -2 ≤ maxVelocity = 1`
satisfies the claim's hypothesis, yet the vector returned for the random
draws `(1, 0, 0)` has magnitude `2`, which is not at most `maxVelocity`. -/
theorem GetNewVelocityVector_magnitude_counterexample :
    ((-2 : ℝ) ≤ 1) ∧ ((0:ℝ) ≤ 0) ∧ ((0:ℝ) ≤ 1)
    ∧ ¬ (mag (GetNewVelocityVector (Init 1 2 4 1 ⟨0, 0⟩ 1 (-2) 1
          (fun _ => 0) 3 4 (fun _ => ⟨1, 0, 0, 1, 0, 0⟩)) 1 0 0) ≤ 1) := by
  refine ⟨by norm_num, le_refl 0, by norm_num, ?_⟩
  have hG : mag (GetNewVelocityVector (Init 1 2 4 1 ⟨0, 0⟩ 1 (-2) 1
        (fun _ => 0) 3 4 (fun _ => ⟨1, 0, 0, 1, 0, 0⟩)) 1 0 0)
      = mag ⟨(normalize ⟨((Int.tmod 1 100 : ℤ) : ℝ), ((Int.tmod 0 100 : ℤ) : ℝ)⟩).x
              * ((-2) + 0 * (1 - (-2))),
             (normalize ⟨((Int.tmod 1 100 : ℤ) : ℝ), ((Int.tmod 0 100 : ℤ) : ℝ)⟩).y
              * ((-2) + 0 * (1 - (-2)))⟩ := rfl
  have hd : ((Int.tmod 1 100 : ℤ) : ℝ) ≠ 0 ∨ ((Int.tmod 0 100 : ℤ) : ℝ) ≠ 0 :=
    Or.inl (Int.cast_ne_zero.mpr (by decide))
  have hone : mag ⟨(normalize ⟨((Int.tmod 1 100 : ℤ) : ℝ), ((Int.tmod 0 100 : ℤ) : ℝ)⟩).x,
      (normalize ⟨((Int.tmod 1 100 : ℤ) : ℝ), ((Int.tmod 0 100 : ℤ) : ℝ)⟩).y⟩ = 1 :=
    mag_normalize_eq_one _ hd
  rw [hG, mag_scale, hone, one_mul]
  have hv : ((-2:ℝ) + 0 * (1 - (-2))) = -2 := by norm_num
  rw [hv, abs_of_nonpos (by norm_num : (-2:ℝ) ≤ 0)]
  norm_num

/-- C1 witness: the amended range theorem applied at `minVelocity = 1`,
`maxVelocity = 2`, random draws `(5, 0, 1/2)`. -/
theorem GetNewVelocityVector_magnitude_in_range_witness :
    ((1:ℝ) ≤ 2) ∧ ((0:ℝ) ≤ 1) ∧ ((0:ℝ) ≤ 1/2) ∧ ((1/2:ℝ) ≤ 1)
    ∧ (Int.tmod 5 100 ≠ 0 ∨ Int.tmod 0 100 ≠ 0)
    ∧ ((1:ℝ) ≤ mag (GetNewVelocityVector (Init 1 2 4 1 ⟨0, 0⟩ 1 1 2
          (fun _ => 0) 3 4 (fun _ => ⟨1, 0, 0, 1, 0, 0⟩)) 5 0 (1/2))
      ∧ mag (GetNewVelocityVector (Init 1 2 4 1 ⟨0, 0⟩ 1 1 2
          (fun _ => 0) 3 4 (fun _ => ⟨1, 0, 0, 1, 0, 0⟩)) 5 0 (1/2)) ≤ 2) :=
  ⟨by norm_num, by norm_num, by norm_num, by norm_num, Or.inl (by decide),
   GetNewVelocityVector_magnitude_in_range 1 2 4 1 ⟨0, 0⟩ 1 1 2 (fun _ => 0)
     3 4 (fun _ => ⟨1, 0, 0, 1, 0, 0⟩) 5 0 (1/2) (by norm_num) (by norm_num)
     (by norm_num) (by norm_num) (Or.inl (by decide))⟩

/-- C2 (amended): for `RandomOnRange0to1` draws in `[0, 1]`, the position
written by `ResetParticle` after `Init` is at distance at most `0.1` from
the emitter center in window space, and hence lies within the circle of the
given radius whenever `radius ≥ 0.1`. -/
theorem ResetParticle_stays_near_center
    (programId computeProgramId numParticles maxEmit : ℕ)
    (c : Vec2) (radius minVelocity maxVelocity : ℝ)
    (gul : String → ℤ) (bufId vId : ℕ) (rnd : ℕ → ResetRandom)
    (r : ResetRandom) (p : Particle)
    (h0 : 0 ≤ r.range0to1Pos) (h1 : r.range0to1Pos ≤ 1) :
    mag ⟨(ResetParticle (Init programId computeProgramId numParticles maxEmit
            c radius minVelocity maxVelocity gul bufId vId rnd) r p).position.x - c.x,
         (ResetParticle (Init programId computeProgramId numParticles maxEmit
            c radius minVelocity maxVelocity gul bufId vId rnd) r p).position.y - c.y⟩
      ≤ 0.1
    ∧ (0.1 ≤ radius →
        mag ⟨(ResetParticle (Init programId computeProgramId numParticles maxEmit
                c radius minVelocity maxVelocity gul bufId vId rnd) r p).position.x - c.x,
             (ResetParticle (Init programId computeProgramId numParticles maxEmit
                c radius minVelocity maxVelocity gul bufId vId rnd) r p).position.y - c.y⟩
          ≤ radius) := by
  have ex : (ResetParticle (Init programId computeProgramId numParticles maxEmit
        c radius minVelocity maxVelocity gul bufId vId rnd) r p).position.x
      = c.x + (normalize ⟨((Int.tmod r.posAndNegX 100 : ℤ) : ℝ),
          ((Int.tmod r.posAndNegY 100 : ℤ) : ℝ)⟩).x * (r.range0to1Pos * 0.1) := rfl
  have ey : (ResetParticle (Init programId computeProgramId numParticles maxEmit
        c radius minVelocity maxVelocity gul bufId vId rnd) r p).position.y
      = c.y + (normalize ⟨((Int.tmod r.posAndNegX 100 : ℤ) : ℝ),
          ((Int.tmod r.posAndNegY 100 : ℤ) : ℝ)⟩).y * (r.range0to1Pos * 0.1) := rfl
  have e : (⟨(ResetParticle (Init programId computeProgramId numParticles maxEmit
          c radius minVelocity maxVelocity gul bufId vId rnd) r p).position.x - c.x,
        (ResetParticle (Init programId computeProgramId numParticles maxEmit
          c radius minVelocity maxVelocity gul bufId vId rnd) r p).position.y - c.y⟩ : Vec2)
      = ⟨(normalize ⟨((Int.tmod r.posAndNegX 100 : ℤ) : ℝ),
            ((Int.tmod r.posAndNegY 100 : ℤ) : ℝ)⟩).x * (r.range0to1Pos * 0.1),
         (normalize ⟨((Int.tmod r.posAndNegX 100 : ℤ) : ℝ),
            ((Int.tmod r.posAndNegY 100 : ℤ) : ℝ)⟩).y * (r.range0to1Pos * 0.1)⟩ := by
    rw [ex, ey]
    congr 1 <;> ring
  have hle : mag ⟨(normalize ⟨((Int.tmod r.posAndNegX 100 : ℤ) : ℝ),
      ((Int.tmod r.posAndNegY 100 : ℤ) : ℝ)⟩).x,
      (normalize ⟨((Int.tmod r.posAndNegX 100 : ℤ) : ℝ),
      ((Int.tmod r.posAndNegY 100 : ℤ) : ℝ)⟩).y⟩ ≤ 1 :=
    mag_normalize_le_one _
  have hs0 : (0:ℝ) ≤ r.range0to1Pos * 0.1 := by nlinarith
  have hb : mag ⟨(ResetParticle (Init programId computeProgramId numParticles maxEmit
        c radius minVelocity maxVelocity gul bufId vId rnd) r p).position.x - c.x,
      (ResetParticle (Init programId computeProgramId numParticles maxEmit
        c radius minVelocity maxVelocity gul bufId vId rnd) r p).position.y - c.y⟩
      ≤ 0.1 := by
    rw [e, mag_scale, abs_of_nonneg hs0]
    calc mag ⟨(normalize ⟨((Int.tmod r.posAndNegX 100 : ℤ) : ℝ),
          ((Int.tmod r.posAndNegY 100 : ℤ) : ℝ)⟩).x,
          (normalize ⟨((Int.tmod r.posAndNegX 100 : ℤ) : ℝ),
          ((Int.tmod r.posAndNegY 100 : ℤ) : ℝ)⟩).y⟩ * (r.range0to1Pos * 0.1)
        ≤ 1 * (r.range0to1Pos * 0.1) := mul_le_mul_of_nonneg_right hle hs0
      _ = r.range0to1Pos * 0.1 := one_mul _
      _ ≤ 0.1 := by nlinarith
  exact ⟨hb, fun hr => le_trans hb hr⟩

/-- C2 counterexample: with radius `0.05 < 0.1` and `RandomOnRange0to1`
draw `1`, the reset position is at distance `0.1` from the center, outside
the circle of the given radius. -/
theorem ResetParticle_within_radius_counterexample :
    ((0:ℝ) ≤ 1) ∧ ((1:ℝ) ≤ 1)
    ∧ ¬ (mag ⟨(ResetParticle (Init 1 2 4 1 ⟨0, 0⟩ 0.05 1 2 (fun _ => 0) 3 4
            (fun _ => ⟨1, 0, 1, 1, 0, 0⟩)) ⟨1, 0, 1, 1, 0, 0⟩ initialParticle).position.x - 0,
          (ResetParticle (Init 1 2 4 1 ⟨0, 0⟩ 0.05 1 2 (fun _ => 0) 3 4
            (fun _ => ⟨1, 0, 1, 1, 0, 0⟩)) ⟨1, 0, 1, 1, 0, 0⟩ initialParticle).position.y - 0⟩
        ≤ 0.05) := by
  refine ⟨by norm_num, le_refl 1, ?_⟩
  have ex : (ResetParticle (Init 1 2 4 1 ⟨0, 0⟩ 0.05 1 2 (fun _ => 0) 3 4
        (fun _ => ⟨1, 0, 1, 1, 0, 0⟩)) ⟨1, 0, 1, 1, 0, 0⟩ initialParticle).position.x
      = (0:ℝ) + (normalize ⟨((Int.tmod 1 100 : ℤ) : ℝ), ((Int.tmod 0 100 : ℤ) : ℝ)⟩).x
          * ((1:ℝ) * 0.1) := rfl
  have ey : (ResetParticle (Init 1 2 4 1 ⟨0, 0⟩ 0.05 1 2 (fun _ => 0) 3 4
        (fun _ => ⟨1, 0, 1, 1, 0, 0⟩)) ⟨1, 0, 1, 1, 0, 0⟩ initialParticle).position.y
      = (0:ℝ) + (normalize ⟨((Int.tmod 1 100 : ℤ) : ℝ), ((Int.tmod 0 100 : ℤ) : ℝ)⟩).y
          * ((1:ℝ) * 0.1) := rfl
  have e : (⟨(ResetParticle (Init 1 2 4 1 ⟨0, 0⟩ 0.05 1 2 (fun _ => 0) 3 4
          (fun _ => ⟨1, 0, 1, 1, 0, 0⟩)) ⟨1, 0, 1, 1, 0, 0⟩ initialParticle).position.x - 0,
        (ResetParticle (Init 1 2 4 1 ⟨0, 0⟩ 0.05 1 2 (fun _ => 0) 3 4
          (fun _ => ⟨1, 0, 1, 1, 0, 0⟩)) ⟨1, 0, 1, 1, 0, 0⟩ initialParticle).position.y - 0⟩ : Vec2)
      = ⟨(normalize ⟨((Int.tmod 1 100 : ℤ) : ℝ), ((Int.tmod 0 100 : ℤ) : ℝ)⟩).x * ((1:ℝ) * 0.1),
         (normalize ⟨((Int.tmod 1 100 : ℤ) : ℝ), ((Int.tmod 0 100 : ℤ) : ℝ)⟩).y * ((1:ℝ) * 0.1)⟩ := by
    rw [ex, ey]
    congr 1 <;> ring
  have hone : mag ⟨(normalize ⟨((Int.tmod 1 100 : ℤ) : ℝ), ((Int.tmod 0 100 : ℤ) : ℝ)⟩).x,
      (normalize ⟨((Int.tmod 1 100 : ℤ) : ℝ), ((Int.tmod 0 100 : ℤ) : ℝ)⟩).y⟩ = 1 :=
    mag_normalize_eq_one _ (Or.inl (Int.cast_ne_zero.mpr (by decide)))
  rw [e, mag_scale, hone, one_mul, abs_of_nonneg (by norm_num : (0:ℝ) ≤ 1 * 0.1)]
  norm_num

/-- C2 witness: the amended near-center theorem applied at radius `1`,
center `(0, 0)`, `RandomOnRange0to1` draw `1/2`. -/
theorem ResetParticle_stays_near_center_witness :
    ((0:ℝ) ≤ 1/2) ∧ ((1/2:ℝ) ≤ 1)
    ∧ (mag ⟨(ResetParticle (Init 1 2 4 1 ⟨0, 0⟩ 1 1 2 (fun _ => 0) 3 4
            (fun _ => ⟨1, 0, 1/2, 1, 0, 0⟩)) ⟨1, 0, 1/2, 1, 0, 0⟩ initialParticle).position.x - (Vec2.mk 0 0).x,
          (ResetParticle (Init 1 2 4 1 ⟨0, 0⟩ 1 1 2 (fun _ => 0) 3 4
            (fun _ => ⟨1, 0, 1/2, 1, 0, 0⟩)) ⟨1, 0, 1/2, 1, 0, 0⟩ initialParticle).position.y - (Vec2.mk 0 0).y⟩
        ≤ 0.1
      ∧ (0.1 ≤ (1:ℝ) →
          mag ⟨(ResetParticle (Init 1 2 4 1 ⟨0, 0⟩ 1 1 2 (fun _ => 0) 3 4
                (fun _ => ⟨1, 0, 1/2, 1, 0, 0⟩)) ⟨1, 0, 1/2, 1, 0, 0⟩ initialParticle).position.x - (Vec2.mk 0 0).x,
              (ResetParticle (Init 1 2 4 1 ⟨0, 0⟩ 1 1 2 (fun _ => 0) 3 4
                (fun _ => ⟨1, 0, 1/2, 1, 0, 0⟩)) ⟨1, 0, 1/2, 1, 0, 0⟩ initialParticle).position.y - (Vec2.mk 0 0).y⟩
            ≤ 1)) :=
  ⟨by norm_num, by norm_num,
   ResetParticle_stays_near_center 1 2 4 1 ⟨0, 0⟩ 1 1 2 (fun _ => 0) 3 4
     (fun _ => ⟨1, 0, 1/2, 1, 0, 0⟩) ⟨1, 0, 1/2, 1, 0, 0⟩ initialParticle
     (by norm_num) (by norm_num)⟩

end ParticleSim
